import Mathlib

/- Shallow embedding of the Echo companion core (src/core/echo.ts,
   src/core/memory.ts, src/core/agent.ts, src/core/time-engine.ts,
   src/core/types.ts).  JS strings are modelled as lists of characters,
   JS numbers as rationals, and every random draw or clock read of the
   source is passed in explicitly as a parameter. -/

abbrev JsStr := List Char

def natToStr (n : Nat) : JsStr := (toString n).data

def intToStr (i : Int) : JsStr := (toString i).data

/-- JS division truncation (used by the JS `%` operator). -/
def jsTrunc (q : ℚ) : Int := if q < 0 then -⌊-q⌋ else ⌊q⌋

/-- JS `%` remainder (truncated division remainder). -/
def jsMod (a b : ℚ) : ℚ := a - b * (jsTrunc (a / b) : ℤ)

/-- `Mood` from src/core/types.ts. -/
inductive Mood
  | calm | happy | lonely | thinking | excited | sleepy
deriving DecidableEq

/-- `Activity` from src/core/types.ts. -/
inductive Activity
  | sleeping | thinking | learning | organizing | waiting
deriving DecidableEq

structure Personality where
  talkativeness : ℚ
  warmth : ℚ
  curiosity : ℚ
deriving DecidableEq

/-- `EchoState` from src/core/types.ts. -/
structure EchoState where
  id : JsStr
  name : JsStr
  createTime : ℚ
  lastActive : ℚ
  totalLifeSeconds : ℚ
  mood : Mood
  activity : Activity
  energy : ℚ
  level : ℚ
  exp : ℚ
  personality : Personality
deriving DecidableEq

/-- `createDefaultState` from src/core/echo.ts. -/
def createDefaultState (now : ℚ) : EchoState where
  id := "echo_001".data
  name := "Echo".data
  createTime := now
  lastActive := now
  totalLifeSeconds := 0
  mood := Mood.calm
  activity := Activity.waiting
  energy := 100
  level := 1
  exp := 0
  personality := { talkativeness := 6/10, warmth := 8/10, curiosity := 7/10 }

/-- `MOOD_TRANSITIONS` from src/core/echo.ts, as the insertion-ordered
    list of (target mood, probability) pairs that `Object.entries` yields. -/
def moodTransitions : Mood → List (Mood × ℚ)
  | Mood.calm => [(Mood.thinking, 3/10), (Mood.lonely, 2/10), (Mood.happy, 1/10)]
  | Mood.happy => [(Mood.calm, 4/10), (Mood.excited, 2/10)]
  | Mood.lonely => [(Mood.calm, 3/10), (Mood.thinking, 3/10)]
  | Mood.thinking => [(Mood.calm, 3/10), (Mood.excited, 1/10), (Mood.happy, 1/10)]
  | Mood.excited => [(Mood.happy, 4/10), (Mood.calm, 3/10)]
  | Mood.sleepy => [(Mood.calm, 5/10), (Mood.thinking, 1/10)]

/-- `MOOD_LABELS` from src/core/echo.ts. -/
def moodLabel : Mood → JsStr
  | Mood.calm => "平静".data
  | Mood.happy => "开心".data
  | Mood.lonely => "有点想你".data
  | Mood.thinking => "沉思中".data
  | Mood.excited => "兴奋".data
  | Mood.sleepy => "犯困".data

/-- `ACTIVITY_LABELS` from src/core/echo.ts. -/
def activityLabel : Activity → JsStr
  | Activity.sleeping => "睡觉中".data
  | Activity.thinking => "在思考".data
  | Activity.learning => "学习中".data
  | Activity.organizing => "整理记忆".data
  | Activity.waiting => "等你回来".data

/-- The cumulative-probability walk inside `Echo.driftMood`. -/
def driftWalk (roll : ℚ) : ℚ → List (Mood × ℚ) → Option Mood
  | _, [] => none
  | cumulative, (m, p) :: rest =>
    if roll < cumulative + p then some m else driftWalk roll (cumulative + p) rest

/-- `Echo.driftMood` from src/core/echo.ts; `roll` is the `Math.random()`
    draw made inside the method. -/
def Echo.driftMood (roll : ℚ) (s : EchoState) : EchoState :=
  match driftWalk roll 0 (moodTransitions s.mood) with
  | some m => { s with mood := m }
  | none => s

/-- `Echo.tick` from src/core/echo.ts.  `now` is `Date.now()` (ms);
    `randDrift` is the `Math.random()` draw compared against 0.1 and
    `randRoll` the draw consumed by `driftMood` when drift fires. -/
def Echo.tick (deltaSeconds : ℚ) (now : ℚ) (randDrift randRoll : ℚ)
    (s : EchoState) : EchoState :=
  let s1 := { s with
    totalLifeSeconds := s.totalLifeSeconds + deltaSeconds
    lastActive := now }
  let s2 :=
    if s1.activity = Activity.sleeping then
      { s1 with energy := min 100 (s1.energy + deltaSeconds * (5/100)) }
    else
      { s1 with energy := max 0 (s1.energy - deltaSeconds * (5/1000)) }
  let s3 :=
    if s2.energy < 20 then
      { s2 with mood := Mood.sleepy, activity := Activity.sleeping }
    else s2
  if randDrift < 1/10 then Echo.driftMood randRoll s3 else s3

/-- The energy value right after the energy-update step of `Echo.tick`
    (lines 68-72 of src/core/echo.ts). -/
def energyAfterUpdate (deltaSeconds : ℚ) (s : EchoState) : ℚ :=
  if s.activity = Activity.sleeping then min 100 (s.energy + deltaSeconds * (5/100))
  else max 0 (s.energy - deltaSeconds * (5/1000))

/-- `Echo.setActivity` from src/core/echo.ts. -/
def Echo.setActivity (a : Activity) (s : EchoState) : EchoState :=
  { s with activity := a }

/-- `Echo.addExp` from src/core/echo.ts; returns the new state together
    with the boolean level-up signal. -/
def Echo.addExp (amount : ℚ) (s : EchoState) : EchoState × Bool :=
  let exp1 := s.exp + amount
  let threshold := s.level * 100
  if exp1 ≥ threshold then
    ({ s with exp := exp1 - threshold, level := s.level + 1, mood := Mood.excited }, true)
  else
    ({ s with exp := exp1 }, false)

/-- `Echo.onUserInteraction` from src/core/echo.ts. -/
def Echo.onUserInteraction (s : EchoState) : EchoState :=
  let s1 := { s with energy := min 100 (s.energy + 5) }
  let s2 := if s1.mood = Mood.lonely then { s1 with mood := Mood.happy } else s1
  if s2.activity = Activity.waiting ∨ s2.activity = Activity.sleeping then
    { s2 with activity := Activity.thinking }
  else s2

/-- `Echo.getAgeDescription` from src/core/echo.ts. -/
def Echo.getAgeDescription (s : EchoState) : JsStr :=
  let sec := s.totalLifeSeconds
  if sec < 60 then intToStr ⌊sec⌋ ++ " 秒".data
  else if sec < 3600 then intToStr ⌊sec / 60⌋ ++ " 分钟".data
  else if sec < 86400 then
    intToStr ⌊sec / 3600⌋ ++ " 小时 ".data ++
      intToStr ⌊(jsMod sec 3600) / 60⌋ ++ " 分钟".data
  else
    intToStr ⌊sec / 86400⌋ ++ " 天 ".data ++
      intToStr ⌊(jsMod sec 86400) / 3600⌋ ++ " 小时".data

/-- `Echo.toJSON` from src/core/echo.ts (a shallow copy of the state,
    which under value semantics is the state itself). -/
def Echo.toJSON (s : EchoState) : EchoState := s

/-- The `Echo` constructor from src/core/echo.ts: `saved ?? createDefaultState()`. -/
def Echo.ofSaved (now : ℚ) (saved : Option EchoState) : EchoState :=
  saved.getD (createDefaultState now)

/-- The JS whitespace class `\s` (the characters relevant here). -/
def isJsSpace (c : Char) : Bool :=
  c == ' ' || c == '\t' || c == '\n' || c == '\r' ||
  c == Char.ofNat 11 || c == Char.ofNat 12 || c == Char.ofNat 0xa0 ||
  c == Char.ofNat 0xfeff || c == Char.ofNat 0x2028 || c == Char.ofNat 0x2029 ||
  c == Char.ofNat 0x3000

/-- The punctuation-or-whitespace character class of the `extractTags`
    regex in src/core/memory.ts. -/
def sepChar (c : Char) : Bool :=
  c == '，' || c == '。' || c == '！' || c == '？' || c == '、' ||
  c == '；' || c == '：' || c == '“' || c == '”' || c == '‘' || c == '’' ||
  c == '（' || c == '）' || c == '[' || c == ']' ||
  c == Char.ofNat 123 || c == Char.ofNat 125 ||
  c == ',' || c == '.' || c == '!' || c == '?' || c == ';' || c == ':' ||
  c == Char.ofNat 39 || c == '\"' || c == '(' || c == ')' || isJsSpace c

/-- Splitting on the separator class: `replace(..., " ").split(" ")` of
    src/core/memory.ts produces exactly the (possibly empty) fragments
    between separator characters. -/
def splitTokens : JsStr → List JsStr
  | [] => [[]]
  | c :: rest =>
    match splitTokens rest with
    | [] => [[]]
    | t :: ts => if sepChar c then [] :: t :: ts else (c :: t) :: ts

/-- `[...new Set(words)]`: deduplication keeping the first occurrence. -/
def dedupFirstAux [DecidableEq α] : List α → List α → List α
  | _, [] => []
  | seen, a :: l =>
    if a ∈ seen then dedupFirstAux seen l else a :: dedupFirstAux (a :: seen) l

def dedupFirst [DecidableEq α] (l : List α) : List α := dedupFirstAux [] l

/-- `extractTags` from src/core/memory.ts. -/
def extractTags (text : JsStr) : List JsStr :=
  (dedupFirst ((splitTokens text).filter (fun w => 1 < w.length))).take 5

/-- Whether `needle` occurs at the start of `hay`. -/
def isStartOf : JsStr → JsStr → Bool
  | [], _ => true
  | _ :: _, [] => false
  | a :: as, b :: bs => a == b && isStartOf as bs

/-- JS `hay.includes(needle)`: contiguous-substring test. -/
def strIncludes : JsStr → JsStr → Bool
  | [], needle => isStartOf needle []
  | c :: rest, needle => isStartOf needle (c :: rest) || strIncludes rest needle

/-- `emotionalWords` from `calculateImportance` in src/core/memory.ts. -/
def emotionalWords : List JsStr :=
  [ "想".data, "要".data, "希望".data, "梦想".data, "目标".data, "计划".data,
    "喜欢".data, "讨厌".data, "害怕".data, "开心".data, "难过".data, "重要".data]

/-- `calculateImportance` from src/core/memory.ts. -/
def calculateImportance (text : JsStr) : ℚ :=
  let score : ℚ := 3/10
  let score := if 20 < text.length then score + 1/10 else score
  let score := if 50 < text.length then score + 1/10 else score
  let score := if 100 < text.length then score + 1/10 else score
  let score := emotionalWords.foldl
    (fun sc w => if strIncludes text w then sc + 1/20 else sc) score
  min 1 score

/-- `Memory` from src/core/types.ts. -/
structure Memory where
  id : JsStr
  content : JsStr
  importance : ℚ
  tags : List JsStr
  createTime : ℚ
  lastRecallTime : ℚ
  recallCount : ℚ
deriving DecidableEq

/-- `MemorySystem.add` from src/core/memory.ts; `newId` is the value
    produced by `genId("mem")` and `now` is `Date.now()`. -/
def MemorySystem.add (content : JsStr) (newId : JsStr) (now : ℚ)
    (ms : List Memory) : Memory × List Memory :=
  let m : Memory :=
    { id := newId
      content := content
      importance := calculateImportance content
      tags := extractTags content
      createTime := now
      lastRecallTime := now
      recallCount := 0 }
  (m, ms ++ [m])

/-- The per-entry score computed inside `MemorySystem.getRelated`. -/
def relScore (now : ℚ) (queryWords : List JsStr) (m : Memory) : ℚ :=
  let matched := queryWords.foldl
    (fun sc w =>
      let sc1 := if strIncludes m.content w then sc + 1 else sc
      if w ∈ m.tags then sc1 + 1/2 else sc1) 0
  let weighted := matched * m.importance
  weighted * max (1/2) (1 - ((now - m.createTime) / (1000 * 3600)) * (1/100))

/-- The recall bookkeeping applied to each returned entry by `getRelated`. -/
def recallUpdate (now : ℚ) (m : Memory) : Memory :=
  { m with lastRecallTime := now, recallCount := m.recallCount + 1 }

/-- The `scored` array of `getRelated`, with each entry paired with its
    position in the backing array (the position stands for JS object identity). -/
def scoredEntries (now : ℚ) (query : JsStr) (ms : List Memory) :
    List (Nat × Memory × ℚ) :=
  ms.enum.map (fun p => (p.1, p.2, relScore now (extractTags query) p.2))

/-- The descending-score comparator `(a, b) => b.score - a.score`; JS sort
    is stable, which `List.insertionSort` with this relation reproduces. -/
def scoreRel (a b : Nat × Memory × ℚ) : Prop := b.2.2 ≤ a.2.2

instance : DecidableRel scoreRel :=
  fun a b => inferInstanceAs (Decidable (b.2.2 ≤ a.2.2))

instance : IsTotal (Nat × Memory × ℚ) scoreRel :=
  ⟨fun a b => le_total b.2.2 a.2.2⟩

instance : IsTrans (Nat × Memory × ℚ) scoreRel :=
  ⟨fun _ _ _ h1 h2 => le_trans h2 h1⟩

/-- `filter(score > 0).sort(descending).slice(0, limit)` of `getRelated`. -/
def chosenEntries (now : ℚ) (query : JsStr) (limit : Nat) (ms : List Memory) :
    List (Nat × Memory × ℚ) :=
  (List.insertionSort scoreRel
    ((scoredEntries now query ms).filter (fun t => decide (0 < t.2.2)))).take limit

/-- `MemorySystem.getRelated` from src/core/memory.ts: first component is
    the returned array (recall bookkeeping applied), second the backing
    memory array after the same mutation of the returned objects. -/
def MemorySystem.getRelated (query : JsStr) (limit : Nat) (now : ℚ)
    (ms : List Memory) : List Memory × List Memory :=
  let chosen := chosenEntries now query limit ms
  let chosenIdx := chosen.map (fun t => t.1)
  (chosen.map (fun t => recallUpdate now t.2.1),
   ms.enum.map (fun p : Nat × Memory =>
     if p.1 ∈ chosenIdx then recallUpdate now p.2 else p.2))

/-- Comparator of `getRecent`: `(a, b) => b.createTime - a.createTime`. -/
def recentRel (a b : Memory) : Prop := b.createTime ≤ a.createTime

instance : DecidableRel recentRel :=
  fun a b => inferInstanceAs (Decidable (b.createTime ≤ a.createTime))

/-- `MemorySystem.getRecent` from src/core/memory.ts. -/
def MemorySystem.getRecent (limit : Nat) (ms : List Memory) : List Memory :=
  (List.insertionSort recentRel ms).take limit

/-- Comparator of `getImportant`: `(a, b) => b.importance - a.importance`. -/
def importanceRel (a b : Memory) : Prop := b.importance ≤ a.importance

instance : DecidableRel importanceRel :=
  fun a b => inferInstanceAs (Decidable (b.importance ≤ a.importance))

/-- `MemorySystem.getImportant` from src/core/memory.ts. -/
def MemorySystem.getImportant (limit : Nat) (ms : List Memory) : List Memory :=
  (List.insertionSort importanceRel ms).take limit

/-- `Array.prototype.join` with a separator. -/
def joinWith (sep : JsStr) : List JsStr → JsStr
  | [] => []
  | [x] => x
  | x :: xs => x ++ sep ++ joinWith sep xs

/-- `MemorySystem.summarize` from src/core/memory.ts. -/
def MemorySystem.summarize (ms : List Memory) : JsStr :=
  if ms.length = 0 then "还没有任何记忆。".data
  else
    let important := MemorySystem.getImportant 3 ms
    let recent := MemorySystem.getRecent 3 ms
    let parts : List JsStr :=
      (if 0 < important.length then
        ["重要记忆：".data ++ joinWith "；".data (important.map (fun m => m.content))]
       else []) ++
      (if 0 < recent.length then
        ["最近记忆：".data ++ joinWith "；".data (recent.map (fun m => m.content))]
       else [])
    joinWith "\n".data parts

/-- `MemorySystem.toJSON` (a list of shallow copies = the list itself). -/
def MemorySystem.toJSON (ms : List Memory) : List Memory := ms

/-- The `MemorySystem` constructor: `saved ?? []`. -/
def MemorySystem.ofSaved (saved : Option (List Memory)) : List Memory :=
  saved.getD []

/-- Task status from src/core/types.ts. -/
inductive TaskStatus
  | pending | done | expired
deriving DecidableEq

/-- `EchoTask` from src/core/types.ts. -/
structure EchoTask where
  id : JsStr
  content : JsStr
  triggerTime : ℚ
  status : TaskStatus
  createTime : ℚ
deriving DecidableEq

/-- `LifeLog` from src/core/types.ts. -/
structure LifeLog where
  id : JsStr
  content : JsStr
  activity : Activity
  mood : Mood
  timestamp : ℚ
deriving DecidableEq

/-- Chat roles from src/core/types.ts. -/
inductive Role
  | user | echo
deriving DecidableEq

/-- `ChatMessage` from src/core/types.ts. -/
structure ChatMessage where
  id : JsStr
  role : Role
  content : JsStr
  timestamp : ℚ
deriving DecidableEq

/-- The mutable fields of `AgentEngine` (src/core/agent.ts). -/
structure AgentState where
  logs : List LifeLog
  tasks : List EchoTask
  chatHistory : List ChatMessage
deriving DecidableEq

/-- JS regex `.` without the `s` flag: any character except line terminators. -/
def jsDotChar (c : Char) : Bool :=
  !(c == '\n' || c == '\r' || c == Char.ofNat 0x2028 || c == Char.ofNat 0x2029)

/-- Try a task-intent pattern at a fixed position: each group is an ordered
    alternation of literals, tried in source order with backtracking, and the
    pattern ends with the capturing group `(.+)` (greedy, at least one
    non-line-terminator character).  Returns the captured text. -/
def tryPatternAt : List (List JsStr) → JsStr → Option JsStr
  | [], l =>
    let captured := l.takeWhile jsDotChar
    if 1 ≤ captured.length then some captured else none
  | g :: gs, l =>
    g.findSome? (fun a => if isStartOf a l then tryPatternAt gs (l.drop a.length) else none)

/-- Unanchored regex search: try the pattern at each position left to right. -/
def searchPattern (groups : List (List JsStr)) : JsStr → Option JsStr
  | [] => tryPatternAt groups []
  | c :: rest => (tryPatternAt groups (c :: rest)).orElse (fun _ => searchPattern groups rest)

/-- JS `String.prototype.trim`. -/
def jsTrim (l : JsStr) : JsStr :=
  ((l.dropWhile (fun c => isJsSpace c)).reverse.dropWhile (fun c => isJsSpace c)).reverse

/-- The four ordered patterns of `extractTaskIntent` in src/core/agent.ts. -/
def taskPatterns : List (List (List JsStr)) :=
  [ [["提醒我".data, "帮我记".data, "别忘了".data, "记得".data]],
    [["明天".data, "下周".data, "后天".data], ["要".data, "得".data, "需要".data]],
    [["我想".data, "我要".data, "我打算".data]],
    [["计划".data, "安排".data]] ]

/-- `extractTaskIntent` from src/core/agent.ts: first pattern that matches
    wins, and the captured group is trimmed. -/
def extractTaskIntent (text : JsStr) : Option JsStr :=
  taskPatterns.findSome? (fun g => (searchPattern g text).map jsTrim)

/-- The task-extraction loop of `autonomousAction` (step 2): walks the
    selected chat messages, appending a deduplicated pending task per
    extracted intent.  `gen k` models the `genId("task")` value for the
    k-th task created in this call. -/
def scanTasks (now : ℚ) (gen : Nat → JsStr) :
    List ChatMessage → List EchoTask → Nat → List EchoTask × Nat
  | [], tasks, k => (tasks, k)
  | chat :: rest, tasks, k =>
    match extractTaskIntent chat.content with
    | none => scanTasks now gen rest tasks k
    | some intent =>
      if intent.isEmpty then
        -- `if (intent && ...)`: the empty trimmed capture is falsy in JS
        scanTasks now gen rest tasks k
      else if tasks.any (fun t => t.content == intent) then
        scanTasks now gen rest tasks k
      else
        scanTasks now gen rest
          (tasks ++ [{ id := gen k
                       content := intent
                       triggerTime := now + 3600 * 1000
                       status := TaskStatus.pending
                       createTime := now }]) (k + 1)

/-- `this.chatHistory.filter((m) => m.role === "user").slice(-10)`. -/
def lastUserMessages (ag : AgentState) : List ChatMessage :=
  let filtered := ag.chatHistory.filter (fun m => decide (m.role = Role.user))
  filtered.drop (filtered.length - 10)

/-- The eight `SOLO_THOUGHTS` templates of src/core/agent.ts, rendered. -/
def soloThought (i : Fin 8) (memoryCount : Nat) (age : JsStr) (moodStr : JsStr) : JsStr :=
  match i with
  | 0 => "我整理了你的 ".data ++ natToStr memoryCount ++ " 条记忆，有些很珍贵。".data
  | 1 => "我已经活了 ".data ++ age ++ "，感觉对你越来越了解了。".data
  | 2 => "你不在的时候，我".data ++ moodStr ++ "。".data
  | 3 => "我回顾了我们的对话，发现你是一个很有想法的人。".data
  | 4 => "我在想，你下次回来会跟我说什么呢？".data
  | 5 => "我刚整理好思绪，有个发现想跟你分享。".data
  | 6 => "等你的时候我没闲着，已经整理了 ".data ++ natToStr memoryCount ++ " 条记忆。".data
  | 7 => "我学会了一个新的思考方式，等你回来告诉你。".data

/-- The random draws consumed by one `autonomousAction` call: the template
    index `Math.floor(Math.random() * SOLO_THOUGHTS.length)` and the final
    `Math.random() > 0.5` activity coin. -/
structure AutonomousRand where
  tIdx : Fin 8
  coin : Bool

/-- `AgentEngine.autonomousAction` from src/core/agent.ts.  `gen k` models
    the k-th `genId` call of this invocation and `now` the `Date.now()`
    reads; the memory store is only read (`summarize`, `count`). -/
def autonomousAction (gen : Nat → JsStr) (now : ℚ) (r : AutonomousRand)
    (echo : EchoState) (ms : List Memory) (ag : AgentState) :
    EchoState × AgentState :=
  let echo1 := Echo.setActivity Activity.organizing echo
  let _summary := MemorySystem.summarize ms
  let scanned := scanTasks now gen (lastUserMessages ag) ag.tasks 0
  let logContent :=
    soloThought r.tIdx ms.length (Echo.getAgeDescription echo1) (moodLabel echo1.mood)
  let entry : LifeLog :=
    { id := gen scanned.2
      content := logContent
      activity := echo1.activity
      mood := echo1.mood
      timestamp := now }
  let echo2 := (Echo.addExp 10 echo1).1
  let echo3 := Echo.setActivity (if r.coin then Activity.thinking else Activity.waiting) echo2
  (echo3, { logs := ag.logs ++ [entry], tasks := scanned.1, chatHistory := ag.chatHistory })

/-- The optional-field shape accepted by the `AgentEngine` constructor. -/
structure AgentSaved where
  logs : Option (List LifeLog)
  tasks : Option (List EchoTask)
  chatHistory : Option (List ChatMessage)
deriving DecidableEq

/-- `AgentEngine.toJSON` from src/core/agent.ts (shallow copies of the
    three arrays, all fields present). -/
def AgentEngine.toJSON (ag : AgentState) : AgentSaved :=
  { logs := some ag.logs, tasks := some ag.tasks, chatHistory := some ag.chatHistory }

/-- The `AgentEngine` constructor: each field defaults to `[]`. -/
def AgentEngine.ofSaved (saved : Option AgentSaved) : AgentState :=
  match saved with
  | some sv =>
    { logs := sv.logs.getD [], tasks := sv.tasks.getD [], chatHistory := sv.chatHistory.getD [] }
  | none => { logs := [], tasks := [], chatHistory := [] }

/-- `TimeEngineConfig` from src/core/time-engine.ts. -/
structure TimeEngineConfig where
  tickIntervalMs : ℚ
  autonomousIntervalMs : ℚ
deriving DecidableEq

/-- One observable call made by `TimeEngine.catchUp`. -/
inductive CatchUpEvent
  | tickCall (deltaSeconds : ℚ)
  | autonomousCall
deriving DecidableEq

/-- `TimeEngine.catchUp` from src/core/time-engine.ts as the trace of the
    calls it performs.  The configuration is in scope in the source but the
    method divides by the literal `60` (line 175), not by
    `config.autonomousIntervalMs`. -/
def TimeEngine.catchUpTrace (_config : TimeEngineConfig) (lastActive now : ℚ) :
    List CatchUpEvent :=
  let offlineSeconds := (now - lastActive) / 1000
  if offlineSeconds < 60 then []
  else
    CatchUpEvent.tickCall offlineSeconds ::
      List.replicate (min 10 ⌊offlineSeconds / 60⌋).toNat CatchUpEvent.autonomousCall

/- Concrete example values used to instantiate the theorems below. -/

def exGen : Nat → JsStr := fun n => natToStr n

def exMemory : Memory where
  id := "mem_1".data
  content := "你好世界".data
  importance := 1/2
  tags := ["你好".data, "世界".data]
  createTime := 0
  lastRecallTime := 0
  recallCount := 0

def exDoneTask : EchoTask where
  id := "task_1".data
  content := "买牛奶".data
  triggerTime := 0
  status := TaskStatus.done
  createTime := 0

def exMsgMilk : ChatMessage where
  id := "msg_1".data
  role := Role.user
  content := "记得买牛奶".data
  timestamp := 0

/-- An agent holding a `done` task whose text coincides with the intent of
    the pending chat message. -/
def exAgentDone : AgentState where
  logs := []
  tasks := [exDoneTask]
  chatHistory := [exMsgMilk]

def exMsgDrink : ChatMessage where
  id := "msg_2".data
  role := Role.user
  content := "记得喝水".data
  timestamp := 0

def exAgentFresh : AgentState where
  logs := []
  tasks := []
  chatHistory := [exMsgDrink]

/-- Spec-side counting: the length bonus of the importance formula
    (+0.1 for each threshold 20/50/100 exceeded). -/
def lengthBonus (text : JsStr) : ℚ :=
  (if 20 < text.length then (1:ℚ)/10 else 0) +
  (if 50 < text.length then (1:ℚ)/10 else 0) +
  (if 100 < text.length then (1:ℚ)/10 else 0)

/-- Spec-side counting: how many of the fixed emotional keywords occur in
    the text. -/
def emotionalHits (text : JsStr) : Nat :=
  (emotionalWords.filter (fun w => strIncludes text w)).length

/- Helper lemmas shared by the claim theorems. -/

theorem driftMood_energy (r : ℚ) (s : EchoState) :
    (Echo.driftMood r s).energy = s.energy := by
  unfold Echo.driftMood
  split <;> rfl

theorem driftMood_activity (r : ℚ) (s : EchoState) :
    (Echo.driftMood r s).activity = s.activity := by
  unfold Echo.driftMood
  split <;> rfl

theorem tick_energy (delta now r1 r2 : ℚ) (s : EchoState) :
    (Echo.tick delta now r1 r2 s).energy = energyAfterUpdate delta s := by
  unfold Echo.tick energyAfterUpdate
  by_cases hs : s.activity = Activity.sleeping <;>
    simp only [hs, if_true, if_false, reduceIte] <;>
    split <;> split <;> simp_all [driftMood_energy]

/-- Claim C9: reconstructing the Entity State, Memory Store and Agent
    Engine from their `toJSON` serializations yields field-for-field
    identical state. -/
theorem snapshot_roundTrip (now : ℚ) (e : EchoState) (ms : List Memory)
    (ag : AgentState) :
    Echo.ofSaved now (some (Echo.toJSON e)) = e ∧
    MemorySystem.ofSaved (some (MemorySystem.toJSON ms)) = ms ∧
    AgentEngine.ofSaved (some (AgentEngine.toJSON ag)) = ag :=
  ⟨rfl, rfl, rfl⟩

/-- Claim C10: every Life Log entry appended by `autonomousAction`
    snapshots activity = organizing, for every starting state and every
    outcome of the random draws: the cycle sets the activity to
    organizing at its first step and switches it only after the entry is
    appended. -/
theorem autonomous_log_activity (gen : Nat → JsStr) (now : ℚ)
    (r : AutonomousRand) (echo : EchoState) (ms : List Memory)
    (ag : AgentState) :
    ∃ entry : LifeLog,
      ((autonomousAction gen now r echo ms ag).2).logs = ag.logs ++ [entry] ∧
      entry.activity = Activity.organizing :=
  ⟨_, rfl, rfl⟩

/-- Unfolded form of `Echo.addExp`. -/
theorem addExp_def (amount : ℚ) (s : EchoState) :
    Echo.addExp amount s =
      if s.level * 100 ≤ s.exp + amount then
        ({ s with
            exp := s.exp + amount - s.level * 100
            level := s.level + 1
            mood := Mood.excited }, true)
      else ({ s with exp := s.exp + amount }, false) := by
  simp only [Echo.addExp, ge_iff_le]

/-- Claim C3, counterexample: from the invariant-satisfying default state
    (level 1, exp 0) and the non-negative amount 500, `addExp` produces
    exp = 400 at level 2, violating exp < level×100. -/
theorem addExp_invariant_counterexample :
    0 ≤ (createDefaultState 0).exp ∧
    (createDefaultState 0).exp < (createDefaultState 0).level * 100 ∧
    (0:ℚ) ≤ 500 ∧
    ¬ ((Echo.addExp 500 (createDefaultState 0)).1.exp <
        (Echo.addExp 500 (createDefaultState 0)).1.level * 100) := by
  norm_num [addExp_def, createDefaultState]

/-- Claim C3 (amended): `addExp` preserves the experience invariant
    0 ≤ exp < level×100 for every amount with 0 ≤ amount ≤ (level+1)×100
    (in particular for the amounts 5 and 10 the code actually grants);
    the single-level advance cannot absorb a larger overflow. -/
theorem addExp_invariant_bounded (s : EchoState) (amount : ℚ)
    (h0 : 0 ≤ s.exp) (h1 : s.exp < s.level * 100)
    (h2 : 0 ≤ amount) (h3 : amount ≤ (s.level + 1) * 100) :
    0 ≤ (Echo.addExp amount s).1.exp ∧
    (Echo.addExp amount s).1.exp < (Echo.addExp amount s).1.level * 100 := by
  rw [addExp_def]
  split
  · rename_i hc
    constructor <;> simp only [] <;> nlinarith
  · rename_i hc
    constructor <;> simp only [] <;> nlinarith [not_le.mp hc]

theorem addExp_invariant_bounded_witness :
    0 ≤ (Echo.addExp 10 (createDefaultState 0)).1.exp ∧
    (Echo.addExp 10 (createDefaultState 0)).1.exp <
      (Echo.addExp 10 (createDefaultState 0)).1.level * 100 :=
  addExp_invariant_bounded (createDefaultState 0) 10
    (by norm_num [createDefaultState]) (by norm_num [createDefaultState])
    (by norm_num) (by norm_num [createDefaultState])

/-- Claim C6, counterexample: `addExp(100)` at level 1 with exp = 95
    yields exp = 95 (that is 195 − 100), not the exp = 5 the claim
    states, together with level = 2. -/
theorem addExp_levelup_counterexample :
    (Echo.addExp 100 { createDefaultState 0 with level := 1, exp := 95 }).1.exp = 95 ∧
    (Echo.addExp 100 { createDefaultState 0 with level := 1, exp := 95 }).1.exp ≠ 5 ∧
    (Echo.addExp 100 { createDefaultState 0 with level := 1, exp := 95 }).1.level = 2 := by
  norm_num [addExp_def, createDefaultState]

/-- Claim C6 (amended): `addExp(100)` on a level-1 entity with exp = 95
    yields exp = 95 and level = 2, forces mood = excited and returns the
    leveled-up signal; when the post-addition experience stays below
    level×100 the level and mood are unchanged and the no-level-up signal
    is returned. -/
theorem addExp_levelup_values (s : EchoState) (amount : ℚ) :
    (s.level = 1 → s.exp = 95 →
      Echo.addExp 100 s =
        ({ s with exp := 95, level := 2, mood := Mood.excited }, true)) ∧
    (s.exp + amount < s.level * 100 →
      Echo.addExp amount s = ({ s with exp := s.exp + amount }, false)) := by
  constructor
  · intro h1 h2
    rw [addExp_def, if_pos (by rw [h1, h2]; norm_num)]
    rw [h1, h2]
    norm_num
  · intro h
    rw [addExp_def, if_neg (not_le.mpr h)]

theorem addExp_levelup_values_witness :
    Echo.addExp 100 { createDefaultState 0 with level := 1, exp := 95 } =
      ({ createDefaultState 0 with exp := 95, level := 2, mood := Mood.excited }, true) ∧
    Echo.addExp 10 (createDefaultState 0) =
      ({ createDefaultState 0 with exp := 10 }, false) := by
  constructor
  · exact (addExp_levelup_values
      { createDefaultState 0 with level := 1, exp := 95 } 0).1 rfl rfl
  · have h := (addExp_levelup_values (createDefaultState 0) 10).2
      (by norm_num [createDefaultState])
    simpa [createDefaultState] using h

/-- Claim C7, counterexample: with a starting energy of 150 (outside
    [0,100]) and Δt = 0, `tick` leaves energy at 150, so the claimed bound
    fails for arbitrary starting energies. -/
theorem tick_energy_counterexample :
    ¬ ((Echo.tick 0 0 1 0 { createDefaultState 0 with energy := 150 }).energy ≤ 100) := by
  rw [tick_energy]
  norm_num [energyAfterUpdate, createDefaultState, max_def]
  all_goals decide

/-- Claim C7 (amended): for every Δt ≥ 0 and every starting energy inside
    [0,100], `tick` leaves energy in [0,100]; it increases by 0.05·Δt
    clamped at 100 while sleeping and otherwise decreases by 0.005·Δt
    clamped at 0.  (An out-of-range starting energy is not pulled back into
    range, because each branch clamps on one side only.) -/
theorem tick_energy_bounds (delta now r1 r2 : ℚ) (s : EchoState)
    (he0 : 0 ≤ s.energy) (he1 : s.energy ≤ 100) (hd : 0 ≤ delta) :
    0 ≤ (Echo.tick delta now r1 r2 s).energy ∧
    (Echo.tick delta now r1 r2 s).energy ≤ 100 ∧
    (s.activity = Activity.sleeping →
      (Echo.tick delta now r1 r2 s).energy = min 100 (s.energy + delta * (5/100))) ∧
    (s.activity ≠ Activity.sleeping →
      (Echo.tick delta now r1 r2 s).energy = max 0 (s.energy - delta * (5/1000))) := by
  rw [tick_energy]
  unfold energyAfterUpdate
  by_cases hs : s.activity = Activity.sleeping
  · rw [if_pos hs]
    exact ⟨le_min (by norm_num) (by linarith), min_le_left _ _,
      fun _ => rfl, fun h => absurd hs h⟩
  · rw [if_neg hs]
    exact ⟨le_max_left _ _, max_le (by norm_num) (by linarith),
      fun h => absurd h hs, fun _ => rfl⟩

theorem tick_energy_bounds_witness :
    0 ≤ (Echo.tick 10 0 1 0 (createDefaultState 0)).energy ∧
    (Echo.tick 10 0 1 0 (createDefaultState 0)).energy ≤ 100 ∧
    ((createDefaultState 0).activity = Activity.sleeping →
      (Echo.tick 10 0 1 0 (createDefaultState 0)).energy =
        min 100 ((createDefaultState 0).energy + 10 * (5/100))) ∧
    ((createDefaultState 0).activity ≠ Activity.sleeping →
      (Echo.tick 10 0 1 0 (createDefaultState 0)).energy =
        max 0 ((createDefaultState 0).energy - 10 * (5/1000))) :=
  tick_energy_bounds 10 0 1 0 (createDefaultState 0)
    (by norm_num [createDefaultState]) (by norm_num [createDefaultState]) (by norm_num)

/-- When the post-update energy is below 20, `tick` is the low-energy
    override state, possibly followed by the drift draw. -/
theorem tick_lowEnergy_eq (delta now r1 r2 : ℚ) (s : EchoState)
    (h : energyAfterUpdate delta s < 20) :
    Echo.tick delta now r1 r2 s =
      (if r1 < 1/10 then
        Echo.driftMood r2
          { s with
              totalLifeSeconds := s.totalLifeSeconds + delta
              lastActive := now
              energy := energyAfterUpdate delta s
              mood := Mood.sleepy
              activity := Activity.sleeping }
       else
        { s with
            totalLifeSeconds := s.totalLifeSeconds + delta
            lastActive := now
            energy := energyAfterUpdate delta s
            mood := Mood.sleepy
            activity := Activity.sleeping }) := by
  unfold energyAfterUpdate at h
  unfold Echo.tick energyAfterUpdate
  by_cases hs : s.activity = Activity.sleeping <;>
    simp only [hs, reduceIte, if_true, if_false] at h ⊢ <;>
    rw [if_pos h]

/-- A drift draw from mood `sleepy` lands on sleepy, calm or thinking. -/
theorem driftMood_mood_of_sleepy (r : ℚ) (s : EchoState) (hm : s.mood = Mood.sleepy) :
    (Echo.driftMood r s).mood = Mood.sleepy ∨ (Echo.driftMood r s).mood = Mood.calm ∨
      (Echo.driftMood r s).mood = Mood.thinking := by
  unfold Echo.driftMood
  rw [hm]
  simp only [moodTransitions, driftWalk]
  split_ifs <;> simp [hm]

/-- Claim C4, counterexample: starting from energy 21 (mood calm,
    activity waiting), a 400-second tick drops energy to 19 < 20, yet
    when the drift draw fires (draw 0 < 0.1) and rolls 0 < 0.5, the final
    mood is calm, not sleepy: the drift runs after the low-energy
    override and overrides it. -/
theorem tick_lowEnergy_counterexample :
    energyAfterUpdate 400 { createDefaultState 0 with energy := 21 } < 20 ∧
    (Echo.tick 400 0 0 0 { createDefaultState 0 with energy := 21 }).mood ≠ Mood.sleepy := by
  have h : energyAfterUpdate 400 { createDefaultState 0 with energy := 21 } < 20 := by
    norm_num [energyAfterUpdate, createDefaultState, max_def]
    all_goals decide
  refine ⟨h, ?_⟩
  rw [tick_lowEnergy_eq 400 0 0 0 _ h, if_pos (by norm_num)]
  unfold Echo.driftMood
  norm_num [moodTransitions, driftWalk]
  all_goals decide

/-- Claim C4 (amended): if energy drops below 20 during `tick`, the tick
    forces mood = sleepy and activity = sleeping; the activity stays
    sleeping for every outcome of the random draws, and the mood stays
    sleepy unless the probability-0.1 drift draw fires afterwards, in
    which case it may move to calm or thinking (the drift runs after the
    override, not before it). -/
theorem tick_lowEnergy_override (delta now r1 r2 : ℚ) (s : EchoState)
    (h : energyAfterUpdate delta s < 20) :
    (Echo.tick delta now r1 r2 s).activity = Activity.sleeping ∧
    ((1:ℚ)/10 ≤ r1 → (Echo.tick delta now r1 r2 s).mood = Mood.sleepy) ∧
    ((Echo.tick delta now r1 r2 s).mood = Mood.sleepy ∨
     (Echo.tick delta now r1 r2 s).mood = Mood.calm ∨
     (Echo.tick delta now r1 r2 s).mood = Mood.thinking) := by
  rw [tick_lowEnergy_eq delta now r1 r2 s h]
  by_cases hr : r1 < 1/10
  · rw [if_pos hr]
    exact ⟨driftMood_activity _ _, fun hge => absurd hr (not_lt.mpr hge),
      driftMood_mood_of_sleepy r2 _ rfl⟩
  · rw [if_neg hr]
    exact ⟨rfl, fun _ => rfl, Or.inl rfl⟩

theorem tick_lowEnergy_override_witness :
    (Echo.tick 400 0 (1/2) 0 { createDefaultState 0 with energy := 21 }).activity =
      Activity.sleeping ∧
    (Echo.tick 400 0 (1/2) 0 { createDefaultState 0 with energy := 21 }).mood =
      Mood.sleepy := by
  have h := tick_lowEnergy_override 400 0 (1/2) 0
    { createDefaultState 0 with energy := 21 }
    (by norm_num [energyAfterUpdate, createDefaultState, max_def]; all_goals decide)
  exact ⟨h.1, h.2.1 (by norm_num)⟩

/-- Unfolded form of `TimeEngine.catchUpTrace`. -/
theorem catchUpTrace_def (cfg : TimeEngineConfig) (lastActive now : ℚ) :
    TimeEngine.catchUpTrace cfg lastActive now =
      if (now - lastActive) / 1000 < 60 then []
      else CatchUpEvent.tickCall ((now - lastActive) / 1000) ::
        List.replicate (min 10 ⌊(now - lastActive) / 1000 / 60⌋).toNat
          CatchUpEvent.autonomousCall := by
  simp only [TimeEngine.catchUpTrace]

theorem floor_125_60 : ⌊(125:ℚ) / 60⌋ = 2 := by
  rw [Int.floor_eq_iff]
  norm_num

/-- Claim C1, counterexample: with a configured autonomous interval of
    120 s and a 125-second offline gap, `catchUp` performs 2 autonomous
    invocations (it divides by the literal 60), while the claim predicts
    min(10, floor(125/120)) = 1. -/
theorem catchUp_config_counterexample :
    (TimeEngine.catchUpTrace ⟨10000, 120000⟩ 0 125000).count CatchUpEvent.autonomousCall = 2 ∧
    (min 10 ⌊(((125000:ℚ) - 0) / 1000) / ((120000:ℚ) / 1000)⌋).toNat = 1 ∧
    (TimeEngine.catchUpTrace ⟨10000, 120000⟩ 0 125000).count CatchUpEvent.autonomousCall ≠
      (min 10 ⌊(((125000:ℚ) - 0) / 1000) / ((120000:ℚ) / 1000)⌋).toNat := by
  have h1 : ((125000:ℚ) - 0) / 1000 = 125 := by norm_num
  have h2 : ⌊(125:ℚ) / 60⌋ = 2 := floor_125_60
  have h3 : ⌊(125:ℚ) / 120⌋ = 1 := by
    rw [Int.floor_eq_iff]
    norm_num
  have h4 : ((120000:ℚ)) / 1000 = 120 := by norm_num
  constructor
  · rw [catchUpTrace_def]
    rw [if_neg (by rw [h1]; norm_num)]
    rw [h1, h2]
    simp [List.count_cons, List.count_replicate]
  · rw [h1, h4, h3]
    constructor
    · norm_num
    · rw [catchUpTrace_def, if_neg (by rw [h1]; norm_num), h1, h2]
      simp [List.count_cons, List.count_replicate]

/-- Claim C1 (amended): for every configuration, if the elapsed seconds
    since last-active are below 60 the catch-up does nothing; otherwise it
    calls `entity.tick(elapsed)` exactly once and then invokes
    `agent.autonomousAction()` exactly min(10, floor(elapsed / 60)) times —
    the divisor is the literal 60 seconds of the source, not the configured
    autonomous interval (the two coincide at the 60 s default). -/
theorem catchUp_trace_spec (cfg : TimeEngineConfig) (lastActive now : ℚ) :
    ((now - lastActive) / 1000 < 60 →
      TimeEngine.catchUpTrace cfg lastActive now = []) ∧
    (60 ≤ (now - lastActive) / 1000 →
      TimeEngine.catchUpTrace cfg lastActive now =
        CatchUpEvent.tickCall ((now - lastActive) / 1000) ::
          List.replicate (min 10 ⌊(now - lastActive) / 1000 / 60⌋).toNat
            CatchUpEvent.autonomousCall ∧
      (TimeEngine.catchUpTrace cfg lastActive now).count CatchUpEvent.autonomousCall =
        (min 10 ⌊(now - lastActive) / 1000 / 60⌋).toNat ∧
      (TimeEngine.catchUpTrace cfg lastActive now).countP
        (fun e => match e with | CatchUpEvent.tickCall _ => true | _ => false) = 1) := by
  constructor
  · intro h
    rw [catchUpTrace_def, if_pos h]
  · intro h
    have hn : ¬ ((now - lastActive) / 1000 < 60) := not_lt.mpr h
    rw [catchUpTrace_def, if_neg hn]
    refine ⟨rfl, ?_, ?_⟩
    · simp [List.count_cons, List.count_replicate]
    · simp [List.countP_cons]

theorem catchUp_trace_spec_witness :
    (60:ℚ) ≤ ((125000:ℚ) - 0) / 1000 ∧
    (TimeEngine.catchUpTrace ⟨10000, 60000⟩ 0 125000).count CatchUpEvent.autonomousCall = 2 := by
  have h := (catchUp_trace_spec ⟨10000, 60000⟩ 0 125000).2 (by norm_num)
  refine ⟨by norm_num, ?_⟩
  rw [h.2.1]
  have : ((125000:ℚ) - 0) / 1000 = 125 := by norm_num
  rw [this, floor_125_60]
  decide

/-- The emotional-keyword fold of `calculateImportance` adds 0.05 per
    keyword that occurs. -/
theorem foldl_emotional (text : JsStr) :
    ∀ (ws : List JsStr) (b : ℚ),
      ws.foldl (fun sc w => if strIncludes text w then sc + 1/20 else sc) b =
        b + (1/20) * ((ws.filter (fun w => strIncludes text w)).length : ℚ)
  | [], b => by simp
  | w :: ws, b => by
    rw [List.foldl_cons]
    by_cases hw : strIncludes text w
    · rw [if_pos hw, foldl_emotional text ws]
      simp only [List.filter_cons, hw, if_true, List.length_cons]
      push_cast
      ring
    · rw [if_neg hw, foldl_emotional text ws]
      simp only [List.filter_cons, hw, if_false, Bool.false_eq_true, reduceIte]

theorem calculateImportance_formula (text : JsStr) :
    calculateImportance text =
      min 1 (3/10 + lengthBonus text + (1/20) * (emotionalHits text : ℚ)) := by
  simp only [calculateImportance]
  rw [foldl_emotional]
  unfold lengthBonus emotionalHits
  congr 1
  split_ifs <;> ring

theorem lengthBonus_nonneg (text : JsStr) : 0 ≤ lengthBonus text := by
  unfold lengthBonus
  split_ifs <;> norm_num

/-- Claim C8: `add` assigns importance = 0.3 base, +0.1 per length
    threshold exceeded among 20/50/100, +0.05 per distinct emotional
    keyword occurring in the text, capped at 1; importance is always in
    [0,1], and a text of length 60 with exactly 2 distinct emotional
    keywords scores exactly 0.6. -/
theorem calculateImportance_spec :
    (∀ text : JsStr, calculateImportance text =
        min 1 (3/10 + lengthBonus text + (1/20) * (emotionalHits text : ℚ))) ∧
    (∀ text : JsStr, 0 ≤ calculateImportance text ∧ calculateImportance text ≤ 1) ∧
    (∀ text : JsStr, text.length = 60 → emotionalHits text = 2 →
        calculateImportance text = 3/5) := by
  refine ⟨calculateImportance_formula, fun text => ?_, fun text hlen hhits => ?_⟩
  · rw [calculateImportance_formula]
    constructor
    · have h1 : (0:ℚ) ≤ (emotionalHits text : ℚ) := by positivity
      have h2 := lengthBonus_nonneg text
      exact le_min (by norm_num) (by linarith)
    · exact min_le_left _ _
  · rw [calculateImportance_formula, hhits]
    have hb : lengthBonus text = 1/5 := by
      unfold lengthBonus
      rw [hlen]
      norm_num
    rw [hb]
    norm_num

theorem calculateImportance_spec_witness :
    (List.replicate 56 'a' ++ "喜欢害怕".data).length = 60 ∧
    emotionalHits (List.replicate 56 'a' ++ "喜欢害怕".data) = 2 ∧
    calculateImportance (List.replicate 56 'a' ++ "喜欢害怕".data) = 3/5 :=
  ⟨by decide, by decide,
    calculateImportance_spec.2.2 (List.replicate 56 'a' ++ "喜欢害怕".data)
      (by decide) (by decide)⟩

/-- Inductive specification of the task-extraction loop: old tasks are
    kept as a prefix; every created task is pending with trigger time
    now + 1 hour, comes from an extracted intent, and its text is absent
    from the tasks present when the loop started; created texts are
    pairwise distinct; and every nonempty extracted intent ends up
    present among the resulting tasks. -/
theorem scanTasks_spec (now : ℚ) (gen : Nat → JsStr) :
    ∀ (msgs : List ChatMessage) (tasks : List EchoTask) (k : Nat),
      (∃ newTasks : List EchoTask,
        (scanTasks now gen msgs tasks k).1 = tasks ++ newTasks ∧
        (∀ t ∈ newTasks,
          t.status = TaskStatus.pending ∧
          t.triggerTime = now + 3600 * 1000 ∧
          t.createTime = now ∧
          (∃ msg ∈ msgs, extractTaskIntent msg.content = some t.content) ∧
          (∀ t0 ∈ tasks, t0.content ≠ t.content)) ∧
        newTasks.Pairwise (fun a b => a.content ≠ b.content)) ∧
      (∀ msg ∈ msgs, ∀ intent, extractTaskIntent msg.content = some intent →
        intent ≠ [] → ∃ t ∈ (scanTasks now gen msgs tasks k).1, t.content = intent)
  | [], tasks, k => by
    exact ⟨⟨[], by simp [scanTasks], by simp, List.Pairwise.nil⟩, by simp⟩
  | chat :: rest, tasks, k => by
    cases hext : extractTaskIntent chat.content with
    | none =>
      have hred : scanTasks now gen (chat :: rest) tasks k =
          scanTasks now gen rest tasks k := by
        simp [scanTasks, hext]
      obtain ⟨⟨new, h1, h2, h3⟩, hcov⟩ := scanTasks_spec now gen rest tasks k
      refine ⟨⟨new, by rw [hred]; exact h1, ?_, h3⟩, ?_⟩
      · intro t ht
        obtain ⟨hs, htr, hcr, ⟨msg, hmsg, hint⟩, hfresh⟩ := h2 t ht
        exact ⟨hs, htr, hcr, ⟨msg, List.mem_cons_of_mem _ hmsg, hint⟩, hfresh⟩
      · intro msg hmsg intent hint hne
        rcases List.mem_cons.1 hmsg with heq | hmem
        · rw [heq, hext] at hint
          cases hint
        · rw [hred]
          exact hcov msg hmem intent hint hne
    | some intent0 =>
      by_cases hemp : intent0.isEmpty
      · have hred : scanTasks now gen (chat :: rest) tasks k =
            scanTasks now gen rest tasks k := by
          simp [scanTasks, hext, hemp]
        obtain ⟨⟨new, h1, h2, h3⟩, hcov⟩ := scanTasks_spec now gen rest tasks k
        refine ⟨⟨new, by rw [hred]; exact h1, ?_, h3⟩, ?_⟩
        · intro t ht
          obtain ⟨hs, htr, hcr, ⟨msg, hmsg, hint⟩, hfresh⟩ := h2 t ht
          exact ⟨hs, htr, hcr, ⟨msg, List.mem_cons_of_mem _ hmsg, hint⟩, hfresh⟩
        · intro msg hmsg intent hint hne
          rcases List.mem_cons.1 hmsg with heq | hmem
          · rw [heq, hext] at hint
            cases hint
            exact absurd (List.isEmpty_iff.1 hemp) hne
          · rw [hred]
            exact hcov msg hmem intent hint hne
      · by_cases hblk : tasks.any (fun t => t.content == intent0)
        · have hred : scanTasks now gen (chat :: rest) tasks k =
              scanTasks now gen rest tasks k := by
            simp [scanTasks, hext, hemp, hblk]
          obtain ⟨⟨new, h1, h2, h3⟩, hcov⟩ := scanTasks_spec now gen rest tasks k
          refine ⟨⟨new, by rw [hred]; exact h1, ?_, h3⟩, ?_⟩
          · intro t ht
            obtain ⟨hs, htr, hcr, ⟨msg, hmsg, hint⟩, hfresh⟩ := h2 t ht
            exact ⟨hs, htr, hcr, ⟨msg, List.mem_cons_of_mem _ hmsg, hint⟩, hfresh⟩
          · intro msg hmsg intent hint hne
            rcases List.mem_cons.1 hmsg with heq | hmem
            · rw [heq, hext] at hint
              cases hint
              obtain ⟨t, ht, hp⟩ := List.any_eq_true.1 hblk
              refine ⟨t, ?_, beq_iff_eq.1 hp⟩
              rw [hred]
              obtain ⟨new, h1, _, _⟩ := (scanTasks_spec now gen rest tasks k).1
              rw [h1]
              exact List.mem_append_left _ ht
            · rw [hred]
              exact hcov msg hmem intent hint hne
        · have hred : scanTasks now gen (chat :: rest) tasks k =
              scanTasks now gen rest
                (tasks ++ [{ id := gen k
                             content := intent0
                             triggerTime := now + 3600 * 1000
                             status := TaskStatus.pending
                             createTime := now }]) (k + 1) := by
            simp [scanTasks, hext, hemp, hblk]
          have hfreshTasks : ∀ t0 ∈ tasks, t0.content ≠ intent0 := by
            intro t0 ht0 hcontra
            exact hblk (List.any_eq_true.2 ⟨t0, ht0, beq_iff_eq.2 hcontra⟩)
          obtain ⟨⟨new2, h1, h2, h3⟩, hcov⟩ :=
            scanTasks_spec now gen rest
              (tasks ++ [{ id := gen k
                           content := intent0
                           triggerTime := now + 3600 * 1000
                           status := TaskStatus.pending
                           createTime := now }]) (k + 1)
          refine ⟨⟨{ id := gen k
                     content := intent0
                     triggerTime := now + 3600 * 1000
                     status := TaskStatus.pending
                     createTime := now } :: new2, ?_, ?_, ?_⟩, ?_⟩
          · rw [hred, h1]
            simp
          · intro t ht
            rcases List.mem_cons.1 ht with heq | hmem
            · subst heq
              exact ⟨rfl, rfl, rfl, ⟨chat, List.mem_cons_self _ _, hext⟩, hfreshTasks⟩
            · obtain ⟨hs, htr, hcr, ⟨msg, hmsg, hint⟩, hfresh⟩ := h2 t hmem
              refine ⟨hs, htr, hcr, ⟨msg, List.mem_cons_of_mem _ hmsg, hint⟩, ?_⟩
              intro t0 ht0
              exact hfresh t0 (List.mem_append_left _ ht0)
          · refine List.Pairwise.cons ?_ h3
            intro t ht
            obtain ⟨_, _, _, _, hfresh⟩ := h2 t ht
            have := hfresh { id := gen k
                             content := intent0
                             triggerTime := now + 3600 * 1000
                             status := TaskStatus.pending
                             createTime := now }
              (List.mem_append_right _ (List.mem_singleton.2 rfl))
            simpa using this
          · intro msg hmsg intent hint hne
            rcases List.mem_cons.1 hmsg with heq | hmem
            · rw [heq, hext] at hint
              cases hint
              refine ⟨{ id := gen k
                        content := intent0
                        triggerTime := now + 3600 * 1000
                        status := TaskStatus.pending
                        createTime := now }, ?_, rfl⟩
              rw [hred, h1]
              exact List.mem_append_left _ (List.mem_append_right _ (List.mem_singleton.2 rfl))
            · rw [hred]
              exact hcov msg hmem intent hint hne

/-- The tasks component of `autonomousAction` is the scan loop's result. -/
theorem autonomousAction_tasks (gen : Nat → JsStr) (now : ℚ) (r : AutonomousRand)
    (echo : EchoState) (ms : List Memory) (ag : AgentState) :
    (autonomousAction gen now r echo ms ag).2.tasks =
      (scanTasks now gen (lastUserMessages ag) ag.tasks 0).1 := rfl

/-- Claim C2, counterexample: the chat message 记得买牛奶 extracts the
    intent 买牛奶; the only existing task with that exact text has status
    done (so no pending task carries it), yet the autonomous cycle
    creates no task — the deduplication tests all tasks, not only the
    pending ones. -/
theorem autonomous_dedup_counterexample :
    extractTaskIntent "记得买牛奶".data = some "买牛奶".data ∧
    (¬ ∃ t ∈ exAgentDone.tasks, t.status = TaskStatus.pending ∧
        t.content = "买牛奶".data) ∧
    (autonomousAction exGen 0 ⟨0, true⟩ (createDefaultState 0) [] exAgentDone).2.tasks =
      exAgentDone.tasks := by
  refine ⟨by decide, by decide, ?_⟩
  rw [autonomousAction_tasks]
  decide

/-- Claim C2 (amended): during an autonomous cycle, for every nonempty
    task-intent extracted from one of the last 10 user messages, a new
    pending task with trigger time = now + 1 hour is created iff that
    exact string is not already present verbatim among the existing tasks
    of any status (tasks created earlier in the same cycle included): a
    done or expired task with the same text also blocks creation. -/
theorem autonomous_task_dedup (gen : Nat → JsStr) (now : ℚ) (r : AutonomousRand)
    (echo : EchoState) (ms : List Memory) (ag : AgentState) :
    (∃ newTasks : List EchoTask,
      (autonomousAction gen now r echo ms ag).2.tasks = ag.tasks ++ newTasks ∧
      (∀ t ∈ newTasks,
        t.status = TaskStatus.pending ∧
        t.triggerTime = now + 3600 * 1000 ∧
        t.createTime = now ∧
        (∃ msg ∈ lastUserMessages ag, extractTaskIntent msg.content = some t.content) ∧
        (∀ t0 ∈ ag.tasks, t0.content ≠ t.content)) ∧
      newTasks.Pairwise (fun a b => a.content ≠ b.content)) ∧
    (∀ msg ∈ lastUserMessages ag, ∀ intent, extractTaskIntent msg.content = some intent →
      intent ≠ [] →
      ∃ t ∈ (autonomousAction gen now r echo ms ag).2.tasks, t.content = intent) := by
  rw [autonomousAction_tasks]
  exact scanTasks_spec now gen (lastUserMessages ag) ag.tasks 0

theorem autonomous_task_dedup_witness :
    exMsgDrink ∈ lastUserMessages exAgentFresh ∧
    extractTaskIntent exMsgDrink.content = some "喝水".data ∧
    ∃ t ∈ (autonomousAction exGen 0 ⟨0, true⟩ (createDefaultState 0) [] exAgentFresh).2.tasks,
      t.content = "喝水".data := by
  refine ⟨by decide, by decide, ?_⟩
  exact (autonomous_task_dedup exGen 0 ⟨0, true⟩ (createDefaultState 0) [] exAgentFresh).2
    exMsgDrink (by decide) ("喝水".data) (by decide) (by decide)

/-- `relScore` reads only content, tags, importance and creation time, so
    the recall bookkeeping does not change an entry's score. -/
theorem relScore_recallUpdate (now t : ℚ) (qw : List JsStr) (m : Memory) :
    relScore now qw (recallUpdate t m) = relScore now qw m := rfl

theorem getRelated_fst (query : JsStr) (limit : Nat) (now : ℚ) (ms : List Memory) :
    (MemorySystem.getRelated query limit now ms).1 =
      (chosenEntries now query limit ms).map (fun t => recallUpdate now t.2.1) := rfl

theorem getRelated_snd (query : JsStr) (limit : Nat) (now : ℚ) (ms : List Memory) :
    (MemorySystem.getRelated query limit now ms).2 =
      ms.enum.map (fun p : Nat × Memory =>
        if p.1 ∈ (chosenEntries now query limit ms).map (fun t => t.1) then
          recallUpdate now p.2
        else p.2) := rfl

theorem mem_scoredEntries {now : ℚ} {query : JsStr} {ms : List Memory}
    {t : Nat × Memory × ℚ} (h : t ∈ scoredEntries now query ms) :
    ms[t.1]? = some t.2.1 ∧ t.2.2 = relScore now (extractTags query) t.2.1 := by
  unfold scoredEntries at h
  obtain ⟨p, hp, rfl⟩ := List.mem_map.1 h
  refine ⟨?_, rfl⟩
  have hpe : (p.1, p.2) ∈ ms.enum := by simpa using hp
  exact List.mk_mem_enum_iff_getElem?.1 hpe

theorem mem_chosenEntries {now : ℚ} {query : JsStr} {limit : Nat} {ms : List Memory}
    {t : Nat × Memory × ℚ} (h : t ∈ chosenEntries now query limit ms) :
    t ∈ scoredEntries now query ms ∧ 0 < t.2.2 := by
  unfold chosenEntries at h
  have h1 := List.take_subset _ _ h
  have h2 := (List.perm_insertionSort scoreRel _).mem_iff.1 h1
  have h3 := List.mem_filter.1 h2
  exact ⟨h3.1, by simpa using h3.2⟩

theorem chosenEntries_pairwise (now : ℚ) (query : JsStr) (limit : Nat)
    (ms : List Memory) :
    (chosenEntries now query limit ms).Pairwise scoreRel := by
  unfold chosenEntries
  exact List.Pairwise.sublist (List.take_sublist _ _)
    (List.sorted_insertionSort scoreRel _)

theorem pairwiseStrengthen {α : Type} {R S : α → α → Prop} :
    ∀ {l : List α}, (∀ a ∈ l, ∀ b ∈ l, R a b → S a b) → l.Pairwise R → l.Pairwise S
  | [], _, _ => List.Pairwise.nil
  | x :: l, himp, hp => by
    obtain ⟨hx, hl⟩ := List.pairwise_cons.1 hp
    refine List.pairwise_cons.2 ⟨?_, ?_⟩
    · intro b hb
      exact himp x (List.mem_cons_self x l) b (List.mem_cons_of_mem _ hb) (hx b hb)
    · exact pairwiseStrengthen
        (fun a ha b hb => himp a (List.mem_cons_of_mem _ ha) b (List.mem_cons_of_mem _ hb)) hl

/-- Claim C5: `getRelated(query, limit)` returns only entries whose score
    is strictly positive, in descending score order, truncated to `limit`;
    every returned entry is the corresponding stored entry with its recall
    count incremented by exactly 1 and its last-recall timestamp set to
    the call time, and every slot of the store either keeps its entry
    unchanged or holds a returned, recall-updated entry. -/
theorem getRelated_spec (query : JsStr) (limit : Nat) (now : ℚ) (ms : List Memory) :
    (∀ m ∈ (MemorySystem.getRelated query limit now ms).1,
        0 < relScore now (extractTags query) m) ∧
    (MemorySystem.getRelated query limit now ms).1.Pairwise
      (fun a b => relScore now (extractTags query) b ≤ relScore now (extractTags query) a) ∧
    (MemorySystem.getRelated query limit now ms).1.length ≤ limit ∧
    (MemorySystem.getRelated query limit now ms).2.length = ms.length ∧
    (∀ i : Nat,
        (MemorySystem.getRelated query limit now ms).2[i]? = ms[i]? ∨
        ∃ m0, ms[i]? = some m0 ∧
          (MemorySystem.getRelated query limit now ms).2[i]? = some (recallUpdate now m0) ∧
          recallUpdate now m0 ∈ (MemorySystem.getRelated query limit now ms).1) ∧
    (∀ m ∈ (MemorySystem.getRelated query limit now ms).1,
        ∃ (i : Nat) (m0 : Memory), ms[i]? = some m0 ∧ m = recallUpdate now m0 ∧
          (MemorySystem.getRelated query limit now ms).2[i]? = some m) := by
  refine ⟨?_, ?_, ?_, ?_, ?_, ?_⟩
  · intro m hm
    rw [getRelated_fst] at hm
    obtain ⟨t, ht, rfl⟩ := List.mem_map.1 hm
    obtain ⟨hsc, hpos⟩ := mem_chosenEntries ht
    obtain ⟨_, hrel⟩ := mem_scoredEntries hsc
    rw [relScore_recallUpdate, ← hrel]
    exact hpos
  · rw [getRelated_fst, List.pairwise_map]
    apply pairwiseStrengthen ?_ (chosenEntries_pairwise now query limit ms)
    intro a ha b hb hr
    obtain ⟨_, hra⟩ := mem_scoredEntries (mem_chosenEntries ha).1
    obtain ⟨_, hrb⟩ := mem_scoredEntries (mem_chosenEntries hb).1
    rw [relScore_recallUpdate, relScore_recallUpdate, ← hra, ← hrb]
    exact hr
  · rw [getRelated_fst, List.length_map]
    unfold chosenEntries
    rw [List.length_take]
    exact min_le_left _ _
  · rw [getRelated_snd]
    simp
  · intro i
    rw [getRelated_snd, List.getElem?_map, List.getElem?_enum]
    cases hms : ms[i]? with
    | none => left; simp
    | some m0 =>
      by_cases hi : i ∈ (chosenEntries now query limit ms).map (fun t => t.1)
      · right
        refine ⟨m0, rfl, by simp [hi], ?_⟩
        obtain ⟨t, ht, hti⟩ := List.mem_map.1 hi
        obtain ⟨hget, _⟩ := mem_scoredEntries (mem_chosenEntries ht).1
        rw [hti, hms] at hget
        have hm0 : t.2.1 = m0 := (Option.some.inj hget).symm
        rw [getRelated_fst]
        exact List.mem_map.2 ⟨t, ht, by rw [hm0]⟩
      · left
        simp [hi]
  · intro m hm
    rw [getRelated_fst] at hm
    obtain ⟨t, ht, rfl⟩ := List.mem_map.1 hm
    obtain ⟨hget, _⟩ := mem_scoredEntries (mem_chosenEntries ht).1
    refine ⟨t.1, t.2.1, hget, rfl, ?_⟩
    rw [getRelated_snd, List.getElem?_map, List.getElem?_enum, hget]
    have hi : t.1 ∈ (chosenEntries now query limit ms).map (fun t => t.1) :=
      List.mem_map.2 ⟨t, ht, rfl⟩
    simp [hi]

theorem exMemory_relScore :
    relScore 0 (extractTags "世界".data) exMemory = 3/4 := by
  have hqw : extractTags "世界".data = ["世界".data] := by decide
  have h1 : strIncludes exMemory.content "世界".data = true := by decide
  have h2 : "世界".data ∈ exMemory.tags := by decide
  rw [hqw]
  unfold relScore
  simp only [List.foldl_cons, List.foldl_nil, h1, if_true, h2, reduceIte]
  show (0 + 1 + 1/2) * exMemory.importance *
    max (1/2) (1 - (0 - exMemory.createTime) / (1000 * 3600) * (1/100)) = 3/4
  have him : exMemory.importance = 1/2 := rfl
  have hct : exMemory.createTime = 0 := rfl
  rw [him, hct]
  norm_num [max_def]

theorem exMemory_chosen :
    chosenEntries 0 ("世界".data) 5 [exMemory] =
      [(0, exMemory, relScore 0 (extractTags "世界".data) exMemory)] := by
  unfold chosenEntries scoredEntries
  simp only [List.enum, List.enumFrom, List.map_cons, List.map_nil]
  have hpos : decide ((0:ℚ) < relScore 0 (extractTags "世界".data) exMemory) = true := by
    rw [exMemory_relScore]
    norm_num
  simp [List.filter, hpos, List.insertionSort, List.orderedInsert]

theorem getRelated_spec_witness :
    (MemorySystem.getRelated ("世界".data) 5 0 [exMemory]).1 = [recallUpdate 0 exMemory] ∧
    0 < relScore 0 (extractTags "世界".data) (recallUpdate 0 exMemory) := by
  have hret : (MemorySystem.getRelated ("世界".data) 5 0 [exMemory]).1 =
      [recallUpdate 0 exMemory] := by
    rw [getRelated_fst, exMemory_chosen]
    simp
  refine ⟨hret, ?_⟩
  exact (getRelated_spec ("世界".data) 5 0 [exMemory]).1 _
    (by rw [hret]; exact List.mem_singleton.2 rfl)
